import Mathlib

/-!
Shallow embedding of the SQLite MCP server core
(src/sqlite_mcp_server.py and src/sqlite_sse_mcp_server.py).

The backing store (the sqlite3 library) and the JSON encoder (the json
module) are external collaborators of the repository; they are modelled
here from the specification: a store is a catalog (the rows of
sqlite_master that the fixed catalog queries read) together with a
client-query executor over an abstract mutable state, and the JSON
encoder is reimplemented for exactly the document shapes the program
serializes (a list of row objects, and a string-to-string object), with
Python json.dumps two-space-indent layout.  Row values range over the
scalar domain the specification assigns to the store: null, boolean,
integer, float and string.  A finite float is carried in the decimal
form m times ten to the minus e in which Python repr prints it, so its
JSON rendering is the exact decimal numeral json.dumps emits.

That the serialized output parses as JSON is stated against a grammar
membership relation (JVal below) transcribed from the ECMA-404 json.org
grammar — whitespace interleaving, escape sequences including \uXXXX
and surrogate pairs, and the leading-zero-free number shape — so the
parse property is independent of the renderer.

Python dict construction (dict(row) on a fetched row, and the dict
comprehensions) is modelled faithfully: insertion replaces the value of
an existing key in place and appends a fresh key at the end, and lookup
on a row returns the first column with the given name.
-/

/-- Scalar values a SELECT can produce, per the specification's data
model (null, boolean, integer, float, string).  A finite float is
represented by the decimal m times ten to the minus e that Python repr
prints for it (for example 0.5 is realV 5 1 and 5000000.0 is
realV 5000000 0). -/
inductive SQLValue where
  | null
  | boolV (b : Bool)
  | intV (n : Int)
  | realV (m : Int) (e : Nat)
  | textV (s : String)
deriving DecidableEq

/-- A fetched row: an ordered list of (column name, value) cells. -/
abbrev DBRow := List (String × SQLValue)

/-- One row of the sqlite_master catalog as read by the fixed catalog
queries: the type column, the name column and the sql column (which is
NULL for system-generated objects). -/
structure MasterRow where
  typ : String
  name : String
  sql : Option String
deriving DecidableEq

/-- Abstract model of the backing store over a state type: reading the
sqlite_master catalog may fail (an exception, carried as the message
string), and running a client query may fail and may change the state. -/
structure StoreModel (σ : Type) where
  readMaster : σ → Except String (List MasterRow)
  runQuery : σ → String → Except String (List DBRow) × σ

/-- The module-level connection: the store model, its current state and
a counter of conn.execute invocations (for observing whether the
executor was touched). -/
structure Conn (σ : Type) where
  model : StoreModel σ
  state : σ
  calls : Nat

/-- conn.execute of a fixed catalog query: consults the catalog, counts
one execute call, leaves the store state unchanged (a catalog SELECT). -/
def connExecMaster {σ : Type} (c : Conn σ) : Except String (List MasterRow) × Conn σ :=
  (c.model.readMaster c.state, { c with calls := c.calls + 1 })

/-- conn.execute of a client-supplied query: runs it through the store
model, counts one execute call, and adopts the resulting store state. -/
def connExecClient {σ : Type} (c : Conn σ) (q : String) : Except String (List DBRow) × Conn σ :=
  match c.model.runQuery c.state q with
  | (r, s2) => (r, { c with state := s2, calls := c.calls + 1 })

/-- Python row[k]: the value of the first column named k (the value the
sqlite3 row lookup yields when column names repeat). -/
def pyLookup (row : DBRow) (k : String) : SQLValue :=
  match row.find? (fun p => p.1 == k) with
  | some p => p.2
  | none => SQLValue.null

/-- Python d[k] = v on a dict represented as an insertion-ordered
association list: replace in place when the key is present, append
otherwise. -/
def dictInsertVal (d : DBRow) (k : String) (v : SQLValue) : DBRow :=
  if d.any (fun p => p.1 == k) then
    d.map (fun p => if p.1 == k then (p.1, v) else p)
  else
    d ++ [(k, v)]

/-- Python dict(row) on a fetched row: iterate over row.keys() in
column order, assigning row[k] for each key. -/
def dictOfRow (row : DBRow) : DBRow :=
  (row.map Prod.fst).foldl (fun d k => dictInsertVal d k (pyLookup row k)) []

/-- String-valued dict insertion (for the schema dict comprehensions). -/
def dictInsertStr (d : List (String × String)) (k v : String) : List (String × String) :=
  if d.any (fun p => p.1 == k) then
    d.map (fun p => if p.1 == k then (p.1, v) else p)
  else
    d ++ [(k, v)]

/-- Hexadecimal digit (lowercase), for \uXXXX escapes. -/
def hexDigit (n : Nat) : Char :=
  if n < 10 then Char.ofNat (48 + n) else Char.ofNat (87 + n)

/-- Four-digit hexadecimal rendering of a code point, lowest four hex
digits. -/
def hex4L (n : Nat) : List Char :=
  [hexDigit (n / 4096 % 16), hexDigit (n / 256 % 16),
   hexDigit (n / 16 % 16), hexDigit (n % 16)]

/-- JSON escaping of one character, Python json.dumps default style
(ensure_ascii): the two-character shorthands for quote, backslash,
backspace, formfeed, newline, carriage return and tab; \uXXXX for the
other control characters and for non-ASCII characters up to the basic
plane; a UTF-16 surrogate pair of two \uXXXX escapes beyond it. -/
def escCharL (c : Char) : List Char :=
  if c = '"' then ['\\', '"']
  else if c = '\\' then ['\\', '\\']
  else if c = '\x08' then ['\\', 'b']
  else if c = '\x0c' then ['\\', 'f']
  else if c = '\n' then ['\\', 'n']
  else if c = '\r' then ['\\', 'r']
  else if c = '\t' then ['\\', 't']
  else if c.toNat < 32 then '\\' :: 'u' :: hex4L c.toNat
  else if c.toNat <= 126 then [c]
  else if c.toNat <= 65535 then '\\' :: 'u' :: hex4L c.toNat
  else
    '\\' :: 'u' :: hex4L (55296 + (c.toNat - 65536) / 1024) ++
    '\\' :: 'u' :: hex4L (56320 + (c.toNat - 65536) % 1024)

/-- JSON escaping of one character, as a string. -/
def escChar (c : Char) : String :=
  String.mk (escCharL c)

/-- JSON string literal for s, at the character level. -/
def quoteJsonL (s : String) : List Char :=
  '"' :: (s.data.map escCharL).flatten ++ ['"']

/-- JSON string literal for s. -/
def quoteJson (s : String) : String :=
  String.mk (quoteJsonL s)

/-- Decimal digits of a natural number, most significant first, no
leading zeros (and the single digit 0 for zero) — the form repr and
json.dumps print integers in. -/
def natToDigits (n : Nat) : List Char :=
  if n = 0 then ['0'] else (Nat.digits 10 n).reverse.map Nat.digitChar

/-- Decimal rendering of an integer, Python repr style. -/
def intDigits (n : Int) : List Char :=
  (if n < 0 then ['-'] else []) ++ natToDigits n.natAbs

/-- Decimal rendering of the float m times ten to the minus e, Python
repr style: an integral float prints with a trailing .0, otherwise the
fraction is printed to exactly e digits with zero padding. -/
def decDigits (m : Int) (e : Nat) : List Char :=
  (if m < 0 then ['-'] else []) ++
    (if e = 0 then natToDigits m.natAbs ++ ['.', '0']
     else
       natToDigits (m.natAbs / 10 ^ e) ++
       '.' :: (List.replicate (e - (natToDigits (m.natAbs % 10 ^ e)).length) '0' ++
         natToDigits (m.natAbs % 10 ^ e)))

/-- JSON rendering of one scalar value, at the character level. -/
def renderScalarL : SQLValue → List Char
  | SQLValue.null => ['n', 'u', 'l', 'l']
  | SQLValue.boolV b => if b then ['t', 'r', 'u', 'e'] else ['f', 'a', 'l', 's', 'e']
  | SQLValue.intV n => intDigits n
  | SQLValue.realV m e => decDigits m e
  | SQLValue.textV s => quoteJsonL s

/-- JSON rendering of one scalar value. -/
def renderScalar (v : SQLValue) : String :=
  String.mk (renderScalarL v)

/-- n spaces of indentation. -/
def indentL (n : Nat) : List Char :=
  List.replicate n ' '

/-- Join character-level items with a separator (the comma-newline of
json.dumps with indent). -/
def joinSep (sep : List Char) : List (List Char) → List Char
  | [] => []
  | [x] => x
  | x :: y :: rest => x ++ sep ++ joinSep sep (y :: rest)

/-- One field line of a row object at nesting level lvl. -/
def jsonItemL (lvl : Nat) (p : String × SQLValue) : List Char :=
  indentL (2 * (lvl + 1)) ++ quoteJsonL p.1 ++ ':' :: ' ' :: renderScalarL p.2

/-- json.dumps of one row object nested at level lvl, indent=2: Python
renders an empty dict as \x7b\x7d and otherwise puts each field on its
own line indented two further spaces, closing at the object's level. -/
def dumpsObjL (lvl : Nat) (fields : DBRow) : List Char :=
  match fields with
  | [] => ['\x7b', '\x7d']
  | _ =>
    '\x7b' :: '\n' :: joinSep [',', '\n'] (fields.map (jsonItemL lvl)) ++
      '\n' :: (indentL (2 * lvl) ++ ['\x7d'])

/-- json.dumps of one row object, as a string. -/
def dumpsObj (lvl : Nat) (fields : DBRow) : String :=
  String.mk (dumpsObjL lvl fields)

/-- json.dumps(result_list, indent=2) for a list of row objects: Python
renders an empty list as [] and otherwise one item per line at two
spaces of indent. -/
def dumpsRowListL (rows : List DBRow) : List Char :=
  match rows with
  | [] => ['[', ']']
  | _ =>
    '[' :: '\n' :: joinSep [',', '\n'] (rows.map (fun r => indentL 2 ++ dumpsObjL 1 r)) ++
      '\n' :: [']']

/-- json.dumps(result_list, indent=2), as a string. -/
def dumpsRowList (rows : List DBRow) : String :=
  String.mk (dumpsRowListL rows)

/-- One line of the top-level name-to-definition object. -/
def strItemL (p : String × String) : List Char :=
  indentL 2 ++ quoteJsonL p.1 ++ ':' :: ' ' :: quoteJsonL p.2

/-- json.dumps(schemas, indent=2) for the top-level name-to-definition
object of the schema listing, at the character level. -/
def dumpsStrDictL (fields : List (String × String)) : List Char :=
  match fields with
  | [] => ['\x7b', '\x7d']
  | _ =>
    '\x7b' :: '\n' :: joinSep [',', '\n'] (fields.map strItemL) ++ '\n' :: ['\x7d']

/-- json.dumps(schemas, indent=2), as a string. -/
def dumpsStrDict (fields : List (String × String)) : String :=
  String.mk (dumpsStrDictL fields)

/-- Python str.strip whitespace test (the ASCII whitespace characters
Python strips). -/
def pyIsSpace (c : Char) : Bool :=
  c = ' ' || c = '\t' || c = '\n' || c = '\r' || c = '\x0b' || c = '\x0c'

/-- Python str.strip: drop leading and trailing whitespace. -/
def pyStrip (s : String) : String :=
  String.mk (((s.data.dropWhile pyIsSpace).reverse.dropWhile pyIsSpace).reverse)

/-- Lower-casing of one character (ASCII range, the part of Python
str.lower the gate can observe). -/
def pyLowerChar (c : Char) : Char :=
  if 'A' ≤ c && c ≤ 'Z' then Char.ofNat (c.toNat + 32) else c

/-- Python str.lower. -/
def pyLower (s : String) : String :=
  String.mk (s.data.map pyLowerChar)

/-- Does the first character list start with the second one. -/
def listStartsWith : List Char → List Char → Bool
  | _, [] => true
  | [], _ :: _ => false
  | c :: cs, p :: ps => c == p && listStartsWith cs ps

/-- Python str.startswith. -/
def pyStartsWith (s pre : String) : Bool :=
  listStartsWith s.data pre.data

/-- The read-only gate's acceptance test: strip, lower-case, and test
for the literal prefix select. -/
def acceptsQuery (q : String) : Bool :=
  pyStartsWith (pyLower (pyStrip q)) "select"

/-- sql_query of src/sqlite_mcp_server.py: reject unless the stripped,
lower-cased text starts with select; otherwise execute, convert each
row with dict(row) and serialize with indent=2; an execution failure is
rendered as an error string. -/
def sql_query {σ : Type} (c : Conn σ) (query : String) : String × Conn σ :=
  let query_stripped := pyLower (pyStrip query)
  if !(pyStartsWith query_stripped "select") then
    ("Error: Only SELECT queries are allowed.", c)
  else
    match connExecClient c query with
    | (Except.ok rows, c2) => (dumpsRowList (rows.map dictOfRow), c2)
    | (Except.error e, c2) => ("Error executing query: " ++ e, c2)

/-- sql_query of src/sqlite_sse_mcp_server.py: same gate written
inline, same execution, conversion and serialization, same messages. -/
def sse_sql_query {σ : Type} (c : Conn σ) (query : String) : String × Conn σ :=
  if !(pyStartsWith (pyLower (pyStrip query)) "select") then
    ("Error: Only SELECT queries are allowed.", c)
  else
    match connExecClient c query with
    | (Except.ok rows, c2) => (dumpsRowList (rows.map dictOfRow), c2)
    | (Except.error e, c2) => ("Error executing query: " ++ e, c2)

/-- get_table_schema of src/sqlite_mcp_server.py: SELECT sql FROM
sqlite_master WHERE type=table AND name=?, fetchone; a found row yields
row[sql] (possibly the NULL value, modelled none), no row yields the
not-found message, a catalog failure yields the error message. -/
def get_table_schema {σ : Type} (c : Conn σ) (table : String) : Option String × Conn σ :=
  match connExecMaster c with
  | (Except.ok m, c2) =>
    match (m.filter (fun r => r.typ == "table" && r.name == table)).head? with
    | some row => (row.sql, c2)
    | none => (some ("Table \x27" ++ table ++ "\x27 not found in database."), c2)
  | (Except.error e, c2) =>
    (some ("Error retrieving schema for table \x27" ++ table ++ "\x27: " ++ e), c2)

/-- get_table_schema of src/sqlite_sse_mcp_server.py: identical flow
(the truthiness test on the fetched one-column row coincides with the
is-not-None test), with the shorter not-found message. -/
def sse_get_table_schema {σ : Type} (c : Conn σ) (table : String) : Option String × Conn σ :=
  match connExecMaster c with
  | (Except.ok m, c2) =>
    match (m.filter (fun r => r.typ == "table" && r.name == table)).head? with
    | some row => (row.sql, c2)
    | none => (some ("Table \x27" ++ table ++ "\x27 not found."), c2)
  | (Except.error e, c2) =>
    (some ("Error retrieving schema for table \x27" ++ table ++ "\x27: " ++ e), c2)

/-- One step of the stdio schema dict comprehension: keep the row when
its sql is not None. -/
def schemasIns (d : List (String × String)) (r : MasterRow) : List (String × String) :=
  match r.sql with
  | some s => dictInsertStr d r.name s
  | none => d

/-- The dict comprehension of the stdio schema listing: name to sql for
the filtered rows whose sql is not None. -/
def schemasDict (rows : List MasterRow) : List (String × String) :=
  rows.foldl schemasIns []

/-- One step of the SSE schema dict comprehension: the filter is Python
truthiness of row[sql], so the NULL value and the empty string are both
excluded. -/
def sse_schemasIns (d : List (String × String)) (r : MasterRow) : List (String × String) :=
  match r.sql with
  | some s => if s == "" then d else dictInsertStr d r.name s
  | none => d

/-- The dict comprehension of the SSE schema listing. -/
def sse_schemasDict (rows : List MasterRow) : List (String × String) :=
  rows.foldl sse_schemasIns []

/-- list_table_schemas of src/sqlite_mcp_server.py: SELECT name, sql
FROM sqlite_master WHERE type=table, build the name-to-sql dict over
rows with non-None sql, and dump with indent=2. -/
def list_table_schemas {σ : Type} (c : Conn σ) : String × Conn σ :=
  match connExecMaster c with
  | (Except.ok m, c2) =>
    (dumpsStrDict (schemasDict (m.filter (fun r => r.typ == "table"))), c2)
  | (Except.error e, c2) => ("Error retrieving table schemas: " ++ e, c2)

/-- list_table_schemas of src/sqlite_sse_mcp_server.py: same query and
dump, but the comprehension filters on truthiness of row[sql]. -/
def sse_list_table_schemas {σ : Type} (c : Conn σ) : String × Conn σ :=
  match connExecMaster c with
  | (Except.ok m, c2) =>
    (dumpsStrDict (sse_schemasDict (m.filter (fun r => r.typ == "table"))), c2)
  | (Except.error e, c2) => ("Error retrieving table schemas: " ++ e, c2)

/-- Message roles of the prompt helpers (UserMessage carries role user). -/
inductive Role where
  | user
  | assistant
deriving DecidableEq

/-- A role-tagged prompt message. -/
structure PromptMessage where
  role : Role
  content : String
deriving DecidableEq

/-- analyze_table_prompt of src/sqlite_mcp_server.py. -/
def analyze_table_prompt (table : String) : List PromptMessage :=
  [⟨Role.user,
    "Analyze the table \x27" ++ table ++
    "\x27 from the SQLite database. Provide insights about the data structure, list key columns, and suggest potential data cleaning or further analysis steps."⟩]

/-- describe_query_prompt of src/sqlite_mcp_server.py. -/
def describe_query_prompt (query : String) : List PromptMessage :=
  [⟨Role.user,
    "I executed the following SQL query:\n\n" ++ query ++
    "\n\nPlease explain what this query does, interpret the results, and suggest improvements if applicable."⟩]

/-- analyze_table_prompt of src/sqlite_sse_mcp_server.py. -/
def sse_analyze_table_prompt (table : String) : List PromptMessage :=
  [⟨Role.user,
    "Please analyze the table \x27" ++ table ++
    "\x27 from the SQLite database. Describe its structure, highlight key columns, and suggest potential data insights."⟩]

/-- describe_query_prompt of src/sqlite_sse_mcp_server.py. -/
def sse_describe_query_prompt (query : String) : List PromptMessage :=
  [⟨Role.user,
    "Explain the following SQL query:\n\n" ++ query ++
    "\n\nDescribe what data it retrieves and suggest any potential improvements."⟩]

/-- Substring containment, stated over the character data. -/
def containsSub (s sub : String) : Prop :=
  ∃ a b : List Char, s.data = a ++ sub.data ++ b

/-!
The JSON grammar of ECMA-404 (json.org), as a membership relation over
character lists: a string is a JSON document of a given abstract value
exactly when a derivation exists.  Numbers are kept as their validated
tokens in the abstract value (the claims never consume the numeric
value, only the document structure).
-/

/-- A decimal digit. -/
def digitB (c : Char) : Bool :=
  '0' <= c && c <= '9'

/-- A nonzero leading digit (the grammar's onenine). -/
def oneNine (c : Char) : Bool :=
  '1' <= c && c <= '9'

/-- A hexadecimal digit of the grammar. -/
def isHexDigitB (c : Char) : Bool :=
  ('0' <= c && c <= '9') || ('a' <= c && c <= 'f') || ('A' <= c && c <= 'F')

/-- Value of a hexadecimal digit. -/
def hexVal (c : Char) : Nat :=
  if '0' <= c && c <= '9' then c.toNat - 48
  else if 'a' <= c && c <= 'f' then c.toNat - 87
  else c.toNat - 55

/-- Value of four hexadecimal digits. -/
def hex4Val (a b c d : Char) : Nat :=
  hexVal a * 4096 + hexVal b * 256 + hexVal c * 16 + hexVal d

/-- The grammar's ws: spaces, newlines, tabs and carriage returns. -/
def AllWs (l : List Char) : Prop :=
  ∀ c ∈ l, c = ' ' ∨ c = '\n' ∨ c = '\t' ∨ c = '\r'

/-- The optional minus sign of a JSON number. -/
inductive NumSign : List Char → Prop where
  | empty : NumSign []
  | minus : NumSign ['-']

/-- The integer part of a JSON number: the single digit 0, or a
nonzero digit followed by digits (no leading zeros). -/
inductive IntPart : List Char → Prop where
  | zero : IntPart ['0']
  | pos (c : Char) (ds : List Char) :
      oneNine c = true → (∀ d ∈ ds, digitB d = true) → IntPart (c :: ds)

/-- The optional fraction: empty, or a point followed by one or more
digits. -/
inductive FracPart : List Char → Prop where
  | empty : FracPart []
  | point (ds : List Char) :
      ds ≠ [] → (∀ d ∈ ds, digitB d = true) → FracPart ('.' :: ds)

/-- The optional exponent: empty, or e or E, an optional sign and one
or more digits. -/
inductive ExpPart : List Char → Prop where
  | empty : ExpPart []
  | mk (c : Char) (sign ds : List Char) :
      (c = 'e' ∨ c = 'E') → (sign = [] ∨ sign = ['+'] ∨ sign = ['-']) →
      ds ≠ [] → (∀ d ∈ ds, digitB d = true) → ExpPart (c :: sign ++ ds)

/-- A JSON number token: sign, integer part, fraction, exponent. -/
inductive NumTok : List Char → Prop where
  | mk (sign ip fp ep : List Char) :
      NumSign sign → IntPart ip → FracPart fp → ExpPart ep →
      NumTok (sign ++ ip ++ fp ++ ep)

/-- Encoding of one character inside a JSON string literal: itself when
unescaped characters are allowed there, a two-character shorthand, a
\uXXXX escape whose digits carry its code point, or a surrogate pair of
two \uXXXX escapes. -/
inductive EncChar : Char → List Char → Prop where
  | plain (c : Char) : c ≠ '"' → c ≠ '\\' → 32 ≤ c.toNat → EncChar c [c]
  | equot : EncChar '"' ['\\', '"']
  | ebslash : EncChar '\\' ['\\', '\\']
  | eslash : EncChar '/' ['\\', '/']
  | ebs : EncChar '\x08' ['\\', 'b']
  | eff : EncChar '\x0c' ['\\', 'f']
  | enl : EncChar '\n' ['\\', 'n']
  | ecr : EncChar '\r' ['\\', 'r']
  | etab : EncChar '\t' ['\\', 't']
  | uesc (c : Char) (h3 h2 h1 h0 : Char) :
      isHexDigitB h3 = true → isHexDigitB h2 = true →
      isHexDigitB h1 = true → isHexDigitB h0 = true →
      hex4Val h3 h2 h1 h0 = c.toNat →
      EncChar c ['\\', 'u', h3, h2, h1, h0]
  | upair (c : Char) (h3 h2 h1 h0 g3 g2 g1 g0 : Char) :
      isHexDigitB h3 = true → isHexDigitB h2 = true →
      isHexDigitB h1 = true → isHexDigitB h0 = true →
      isHexDigitB g3 = true → isHexDigitB g2 = true →
      isHexDigitB g1 = true → isHexDigitB g0 = true →
      55296 ≤ hex4Val h3 h2 h1 h0 → hex4Val h3 h2 h1 h0 < 56320 →
      56320 ≤ hex4Val g3 g2 g1 g0 → hex4Val g3 g2 g1 g0 < 57344 →
      65536 + (hex4Val h3 h2 h1 h0 - 55296) * 1024 + (hex4Val g3 g2 g1 g0 - 56320) = c.toNat →
      EncChar c ['\\', 'u', h3, h2, h1, h0, '\\', 'u', g3, g2, g1, g0]

/-- Encoding of a whole string body: character encodings in sequence. -/
inductive EncStr : List Char → List Char → Prop where
  | nil : EncStr [] []
  | cons (c : Char) (t s ts : List Char) :
      EncChar c t → EncStr s ts → EncStr (c :: s) (t ++ ts)

/-- Abstract JSON values produced by a parse (numbers kept as their
tokens). -/
inductive JsonVal : Type where
  | null
  | boolJ (b : Bool)
  | numJ (tok : String)
  | strJ (s : String)
  | arrJ (elems : List JsonVal)
  | objJ (fields : List (String × JsonVal))

mutual

/-- The string derives as a JSON value: the value, array and object
productions of the grammar. -/
inductive JVal : List Char → JsonVal → Prop where
  | vnull : JVal ['n', 'u', 'l', 'l'] JsonVal.null
  | vtrue : JVal ['t', 'r', 'u', 'e'] (JsonVal.boolJ true)
  | vfalse : JVal ['f', 'a', 'l', 's', 'e'] (JsonVal.boolJ false)
  | vnum (tok : List Char) : NumTok tok → JVal tok (JsonVal.numJ (String.mk tok))
  | vstr (s enc : List Char) :
      EncStr s enc → JVal ('"' :: enc ++ ['"']) (JsonVal.strJ (String.mk s))
  | varrNil (w : List Char) : AllWs w → JVal ('[' :: w ++ [']']) (JsonVal.arrJ [])
  | varr (t : List Char) (vs : List JsonVal) :
      JElems t vs → JVal ('[' :: t ++ [']']) (JsonVal.arrJ vs)
  | vobjNil (w : List Char) : AllWs w → JVal ('\x7b' :: w ++ ['\x7d']) (JsonVal.objJ [])
  | vobj (t : List Char) (fs : List (String × JsonVal)) :
      JMembers t fs → JVal ('\x7b' :: t ++ ['\x7d']) (JsonVal.objJ fs)

/-- The grammar's elements: one element (ws value ws), or an element, a
comma and more elements. -/
inductive JElems : List Char → List JsonVal → Prop where
  | one (w1 t w2 : List Char) (v : JsonVal) :
      AllWs w1 → JVal t v → AllWs w2 → JElems (w1 ++ t ++ w2) [v]
  | cons (w1 t w2 rest : List Char) (v : JsonVal) (vs : List JsonVal) :
      AllWs w1 → JVal t v → AllWs w2 → JElems rest vs →
      JElems (w1 ++ t ++ w2 ++ ',' :: rest) (v :: vs)

/-- The grammar's members: one member (ws string ws colon element), or
a member, a comma and more members. -/
inductive JMembers : List Char → List (String × JsonVal) → Prop where
  | one (w1 s enc w2 w3 t w4 : List Char) (v : JsonVal) :
      AllWs w1 → EncStr s enc → AllWs w2 → AllWs w3 → JVal t v → AllWs w4 →
      JMembers (w1 ++ '"' :: enc ++ '"' :: w2 ++ ':' :: w3 ++ t ++ w4)
        [(String.mk s, v)]
  | cons (w1 s enc w2 w3 t w4 rest : List Char) (v : JsonVal)
      (fs : List (String × JsonVal)) :
      AllWs w1 → EncStr s enc → AllWs w2 → AllWs w3 → JVal t v → AllWs w4 →
      JMembers rest fs →
      JMembers (w1 ++ '"' :: enc ++ '"' :: w2 ++ ':' :: w3 ++ t ++ w4 ++ ',' :: rest)
        ((String.mk s, v) :: fs)

end

/-- The abstract value a scalar serializes to. -/
def scalarAST : SQLValue → JsonVal
  | SQLValue.null => JsonVal.null
  | SQLValue.boolV b => JsonVal.boolJ b
  | SQLValue.intV n => JsonVal.numJ (String.mk (intDigits n))
  | SQLValue.realV m e => JsonVal.numJ (String.mk (decDigits m e))
  | SQLValue.textV s => JsonVal.strJ s

/-- The abstract object a row serializes to. -/
def rowAST (r : DBRow) : List (String × JsonVal) :=
  r.map (fun p => (p.1, scalarAST p.2))

/-- A concrete catalog: the startups example table of the spec. -/
def demoMaster : List MasterRow :=
  [⟨"table", "startups",
    some "CREATE TABLE startups (id INTEGER, startup_name TEXT, funding_amount REAL)"⟩]

/-- The one row of the startups example. -/
def demoRow : DBRow :=
  [("startup_name", SQLValue.textV "AlphaTech"),
   ("funding_amount", SQLValue.realV 5000000 0)]

/-- A concrete store over a unit state: catalog reads succeed and every
client query yields the single startups row. -/
def demoModel : StoreModel Unit :=
  ⟨fun _ => Except.ok demoMaster, fun s _ => (Except.ok [demoRow], s)⟩

/-- A fresh connection to the demo store. -/
def demoConn : Conn Unit := ⟨demoModel, (), 0⟩

/-- A catalog holding a table-kind entry whose definition text is the
empty string (non-null), to separate the two implementations of the
schema listing. -/
def cexMaster : List MasterRow := [⟨"table", "t", some ""⟩]

/-- Store over the empty-definition catalog. -/
def cexModel : StoreModel Unit :=
  ⟨fun _ => Except.ok cexMaster, fun s _ => (Except.ok [], s)⟩

/-- Connection to the empty-definition store. -/
def cexConn : Conn Unit := ⟨cexModel, (), 0⟩

/-- A catalog holding a table-kind entry with a NULL definition. -/
def nullDefMaster : List MasterRow := [⟨"table", "hidden", none⟩]

/-- Store over the NULL-definition catalog. -/
def nullDefModel : StoreModel Unit :=
  ⟨fun _ => Except.ok nullDefMaster, fun s _ => (Except.ok [], s)⟩

/-- Connection to the NULL-definition store. -/
def nullDefConn : Conn Unit := ⟨nullDefModel, (), 0⟩

/-- A store whose catalog read and query execution both fail, carrying
the underlying error messages. -/
def errModel : StoreModel Unit :=
  ⟨fun _ => Except.error "database is locked",
   fun s _ => (Except.error "no such table: missing", s)⟩

/-- Connection to the failing store. -/
def errConn : Conn Unit := ⟨errModel, (), 0⟩

/-- A store with a healthy catalog whose client-query execution fails —
the ordinary ExecutionError case of an accepted SELECT naming a bad
column. -/
def execFailModel : StoreModel Unit :=
  ⟨fun _ => Except.ok demoMaster,
   fun s _ => (Except.error "no such column: bogus", s)⟩

/-- Connection to the execution-failing store. -/
def execFailConn : Conn Unit := ⟨execFailModel, (), 0⟩

/-!
Theorems.
-/

/-- The character data of an appended string is the appended data. -/
theorem strData_append (a b : String) : (a ++ b).data = a.data ++ b.data := rfl

/-- A middle factor is contained as a substring. -/
theorem containsSub_mid (x y z : String) : containsSub (x ++ y ++ z) y :=
  ⟨x.data, z.data, by simp [strData_append]⟩

/-- A right factor is contained as a substring. -/
theorem containsSub_right (x y : String) : containsSub (x ++ y) y :=
  ⟨x.data, [], by simp [strData_append]⟩

/-- Substring containment survives prepending. -/
theorem containsSub_append_left (x y sub : String) (h : containsSub y sub) :
    containsSub (x ++ y) sub := by
  obtain ⟨a, b, hy⟩ := h
  exact ⟨x.data ++ a, b, by simp [strData_append, hy]⟩

/-- Claim C1: sql_query proceeds to execution if and only if the
stripped, lower-cased query starts with select; a rejected query yields
exactly the fixed rejection string and leaves the connection untouched
(in particular the execute operation is never invoked: the call counter
is unchanged), while an accepted query invokes execute exactly once and
adopts the resulting store state. -/
theorem claim_C1_gate {σ : Type} (c : Conn σ) (q : String) :
    (acceptsQuery q = false →
      sql_query c q = ("Error: Only SELECT queries are allowed.", c)) ∧
    (acceptsQuery q = true →
      (sql_query c q).2.calls = c.calls + 1 ∧
      (sql_query c q).2.state = (c.model.runQuery c.state q).2) := by
  unfold acceptsQuery
  constructor
  · intro h
    simp [sql_query, h]
  · intro h
    cases hrq : c.model.runQuery c.state q with
    | mk r s2 =>
      cases r with
      | ok rows => simp [sql_query, h, connExecClient, hrq]
      | error e => simp [sql_query, h, connExecClient, hrq]

/-- Witness for C1 at concrete inputs: a DROP statement is rejected
verbatim with the connection untouched, and a SELECT increments the
execute-call counter. -/
theorem claim_C1_witness :
    sql_query demoConn "DROP TABLE startups" =
      ("Error: Only SELECT queries are allowed.", demoConn) ∧
    (sql_query demoConn "SELECT 1").2.calls = demoConn.calls + 1 :=
  ⟨(claim_C1_gate demoConn "DROP TABLE startups").1 (by decide),
   ((claim_C1_gate demoConn "SELECT 1").2 (by decide)).1⟩

/-- Claim C6: a query rejected by the gate performs no execution, so
the whole connection — in particular the store state holding every
table's rows — is exactly what it was before the call. -/
theorem claim_C6_frame {σ : Type} (c : Conn σ) (q : String)
    (h : acceptsQuery q = false) :
    (sql_query c q).2 = c ∧ (sql_query c q).2.state = c.state := by
  unfold acceptsQuery at h
  simp [sql_query, h]

/-- Witness for C6: the DELETE of the spec example leaves the demo
connection state unchanged. -/
theorem claim_C6_witness :
    (sql_query demoConn "DELETE FROM startups").2 = demoConn ∧
    (sql_query demoConn "DELETE FROM startups").2.state = demoConn.state :=
  claim_C6_frame demoConn "DELETE FROM startups" (by decide)

/-- Claim C9: the stdio sql_query and the SSE sql_query are
observationally equivalent: on every connection and every query string
they return the same result string and the same final connection. -/
theorem claim_C9_transport_equiv {σ : Type} (c : Conn σ) (q : String) :
    sql_query c q = sse_sql_query c q := rfl

/-- Claim C7: listing the table schemas twice with no intervening
schema change yields identical strings, in both implementations (the
first call only bumps the call counter, which the listing ignores). -/
theorem claim_C7_idempotent {σ : Type} (c : Conn σ) :
    (list_table_schemas ((list_table_schemas c).2)).1 = (list_table_schemas c).1 ∧
    (sse_list_table_schemas ((sse_list_table_schemas c).2)).1 =
      (sse_list_table_schemas c).1 := by
  cases h : c.model.readMaster c.state with
  | ok m => constructor <;> simp [list_table_schemas, sse_list_table_schemas, connExecMaster, h]
  | error e => constructor <;> simp [list_table_schemas, sse_list_table_schemas, connExecMaster, h]

/-- Claim C8: each prompt helper is a pure function of its string
argument returning exactly one user-role message embedding the argument
verbatim inside a fixed template (for each helper there is one fixed
prefix and suffix independent of the argument, and the argument occurs
as a substring of the produced text). -/
theorem claim_C8_prompts :
    (∃ pre suf, ∀ t : String,
      analyze_table_prompt t = [⟨Role.user, pre ++ t ++ suf⟩] ∧
      containsSub (pre ++ t ++ suf) t) ∧
    (∃ pre suf, ∀ q : String,
      describe_query_prompt q = [⟨Role.user, pre ++ q ++ suf⟩] ∧
      containsSub (pre ++ q ++ suf) q) ∧
    (∃ pre suf, ∀ t : String,
      sse_analyze_table_prompt t = [⟨Role.user, pre ++ t ++ suf⟩] ∧
      containsSub (pre ++ t ++ suf) t) ∧
    (∃ pre suf, ∀ q : String,
      sse_describe_query_prompt q = [⟨Role.user, pre ++ q ++ suf⟩] ∧
      containsSub (pre ++ q ++ suf) q) :=
  ⟨⟨"Analyze the table \x27",
    "\x27 from the SQLite database. Provide insights about the data structure, list key columns, and suggest potential data cleaning or further analysis steps.",
    fun t => ⟨rfl, containsSub_mid _ t _⟩⟩,
   ⟨"I executed the following SQL query:\n\n",
    "\n\nPlease explain what this query does, interpret the results, and suggest improvements if applicable.",
    fun q => ⟨rfl, containsSub_mid _ q _⟩⟩,
   ⟨"Please analyze the table \x27",
    "\x27 from the SQLite database. Describe its structure, highlight key columns, and suggest potential data insights.",
    fun t => ⟨rfl, containsSub_mid _ t _⟩⟩,
   ⟨"Explain the following SQL query:\n\n",
    "\n\nDescribe what data it retrieves and suggest any potential improvements.",
    fun q => ⟨rfl, containsSub_mid _ q _⟩⟩⟩

/-- Claim C4: with the catalog readable, a table name matched by no
catalog entry of kind table yields a returned (not raised) message
containing the table name and the words not found, in both
implementations; a matched entry whose definition text is present is
returned verbatim, so whenever the stored definition begins with CREATE
TABLE and contains the table name, so does the returned text. -/
theorem claim_C4_describe {σ : Type} (c : Conn σ) (table : String) (m : List MasterRow)
    (hm : c.model.readMaster c.state = Except.ok m) :
    ((m.filter (fun r => r.typ == "table" && r.name == table)).head? = none →
      (∃ msg, (get_table_schema c table).1 = some msg ∧
        containsSub msg table ∧ containsSub msg "not found") ∧
      (∃ msg, (sse_get_table_schema c table).1 = some msg ∧
        containsSub msg table ∧ containsSub msg "not found")) ∧
    (∀ row d, (m.filter (fun r => r.typ == "table" && r.name == table)).head? = some row →
      row.sql = some d →
      (get_table_schema c table).1 = some d ∧
      (sse_get_table_schema c table).1 = some d ∧
      (pyStartsWith d "CREATE TABLE" = true → containsSub d table →
        ∃ out, (get_table_schema c table).1 = some out ∧
          pyStartsWith out "CREATE TABLE" = true ∧ containsSub out table)) := by
  constructor
  · intro hnone
    constructor
    · refine ⟨"Table \x27" ++ table ++ "\x27 not found in database.", ?_, ?_, ?_⟩
      · simp [get_table_schema, connExecMaster, hm, hnone]
      · exact containsSub_mid "Table \x27" table "\x27 not found in database."
      · exact containsSub_append_left ("Table \x27" ++ table) _ _
          ⟨"\x27 ".data, " in database.".data, by decide⟩
    · refine ⟨"Table \x27" ++ table ++ "\x27 not found.", ?_, ?_, ?_⟩
      · simp [sse_get_table_schema, connExecMaster, hm, hnone]
      · exact containsSub_mid "Table \x27" table "\x27 not found."
      · exact containsSub_append_left ("Table \x27" ++ table) _ _
          ⟨"\x27 ".data, ".".data, by decide⟩
  · intro row d hrow hd
    refine ⟨?_, ?_, ?_⟩
    · simp [get_table_schema, connExecMaster, hm, hrow, hd]
    · simp [sse_get_table_schema, connExecMaster, hm, hrow, hd]
    · intro h1 h2
      exact ⟨d, by simp [get_table_schema, connExecMaster, hm, hrow, hd], h1, h2⟩

/-- Witness for C4: on the demo store, an absent table produces the
not-found message and the present startups table returns its stored
CREATE TABLE text. -/
theorem claim_C4_witness :
    ((∃ msg, (get_table_schema demoConn "nonexistent_table").1 = some msg ∧
        containsSub msg "nonexistent_table" ∧ containsSub msg "not found") ∧
      (∃ msg, (sse_get_table_schema demoConn "nonexistent_table").1 = some msg ∧
        containsSub msg "nonexistent_table" ∧ containsSub msg "not found")) ∧
    ((get_table_schema demoConn "startups").1 =
        some "CREATE TABLE startups (id INTEGER, startup_name TEXT, funding_amount REAL)" ∧
      (sse_get_table_schema demoConn "startups").1 =
        some "CREATE TABLE startups (id INTEGER, startup_name TEXT, funding_amount REAL)") :=
  ⟨(claim_C4_describe demoConn "nonexistent_table" demoMaster rfl).1 (by decide),
   ⟨((claim_C4_describe demoConn "startups" demoMaster rfl).2
      ⟨"table", "startups",
        some "CREATE TABLE startups (id INTEGER, startup_name TEXT, funding_amount REAL)"⟩
      "CREATE TABLE startups (id INTEGER, startup_name TEXT, funding_amount REAL)"
      (by decide) rfl).1,
   ((claim_C4_describe demoConn "startups" demoMaster rfl).2
      ⟨"table", "startups",
        some "CREATE TABLE startups (id INTEGER, startup_name TEXT, funding_amount REAL)"⟩
      "CREATE TABLE startups (id INTEGER, startup_name TEXT, funding_amount REAL)"
      (by decide) rfl).2.1⟩⟩

/-- Claim C5: no operation propagates a store failure; each failure is
absorbed at its own operation boundary, independently of the rest of
the store: a failing execution of an accepted query makes sql_query
return the rendered error text, and a failing catalog read makes the
schema operations return theirs, each carrying the underlying store
message, in both implementations.  (The operations are total Lean
functions, so no exception can escape them.) -/
theorem claim_C5_error_boundary {σ : Type} (c : Conn σ) (q table e1 e2 : String) :
    (∀ s2 : σ, acceptsQuery q = true →
      c.model.runQuery c.state q = (Except.error e2, s2) →
      (sql_query c q).1 = "Error executing query: " ++ e2 ∧
      containsSub (sql_query c q).1 e2 ∧
      (sse_sql_query c q).1 = "Error executing query: " ++ e2) ∧
    (c.model.readMaster c.state = Except.error e1 →
      (list_table_schemas c).1 = "Error retrieving table schemas: " ++ e1 ∧
      containsSub (list_table_schemas c).1 e1 ∧
      (sse_list_table_schemas c).1 = "Error retrieving table schemas: " ++ e1 ∧
      (get_table_schema c table).1 =
        some ("Error retrieving schema for table \x27" ++ table ++ "\x27: " ++ e1) ∧
      (sse_get_table_schema c table).1 =
        some ("Error retrieving schema for table \x27" ++ table ++ "\x27: " ++ e1) ∧
      containsSub ("Error retrieving schema for table \x27" ++ table ++ "\x27: " ++ e1) e1) := by
  constructor
  · intro s2 hacc hrun
    unfold acceptsQuery at hacc
    refine ⟨?_, ?_, ?_⟩
    · simp [sql_query, hacc, connExecClient, hrun]
    · rw [(show (sql_query c q).1 = "Error executing query: " ++ e2 by
        simp [sql_query, hacc, connExecClient, hrun])]
      exact containsSub_right _ _
    · simp [sse_sql_query, hacc, connExecClient, hrun]
  · intro hm
    refine ⟨?_, ?_, ?_, ?_, ?_, ?_⟩
    · simp [list_table_schemas, connExecMaster, hm]
    · rw [(show (list_table_schemas c).1 = "Error retrieving table schemas: " ++ e1 by
        simp [list_table_schemas, connExecMaster, hm])]
      exact containsSub_right _ _
    · simp [sse_list_table_schemas, connExecMaster, hm]
    · simp [get_table_schema, connExecMaster, hm]
    · simp [sse_get_table_schema, connExecMaster, hm]
    · exact containsSub_right _ _

/-- Witness for C5 at two independent concrete stores: an accepted
SELECT failing against a healthy catalog, and a failing catalog read. -/
theorem claim_C5_witness :
    ((sql_query execFailConn "SELECT bogus FROM startups").1 =
      "Error executing query: " ++ "no such column: bogus" ∧
     containsSub (sql_query execFailConn "SELECT bogus FROM startups").1
       "no such column: bogus" ∧
     (sse_sql_query execFailConn "SELECT bogus FROM startups").1 =
      "Error executing query: " ++ "no such column: bogus") ∧
    ((list_table_schemas errConn).1 =
      "Error retrieving table schemas: " ++ "database is locked" ∧
     containsSub (list_table_schemas errConn).1 "database is locked" ∧
     (sse_list_table_schemas errConn).1 =
      "Error retrieving table schemas: " ++ "database is locked" ∧
     (get_table_schema errConn "t").1 =
      some ("Error retrieving schema for table \x27" ++ "t" ++ "\x27: " ++ "database is locked") ∧
     (sse_get_table_schema errConn "t").1 =
      some ("Error retrieving schema for table \x27" ++ "t" ++ "\x27: " ++ "database is locked") ∧
     containsSub ("Error retrieving schema for table \x27" ++ "t" ++ "\x27: " ++ "database is locked")
       "database is locked") :=
  ⟨(claim_C5_error_boundary execFailConn "SELECT bogus FROM startups" "t"
      "unused" "no such column: bogus").1 () (by decide) rfl,
   (claim_C5_error_boundary errConn "unused" "t" "database is locked" "unused").2 rfl⟩

/-- Claim C10: a catalog entry of kind table whose definition text is
NULL makes get_table_schema return the NULL value itself (not the
not-found message and not an error string), in both implementations, so
the outcome is observably distinct from every string-returning outcome. -/
theorem claim_C10_null_definition {σ : Type} (c : Conn σ) (table : String)
    (m : List MasterRow) (row : MasterRow)
    (hm : c.model.readMaster c.state = Except.ok m)
    (hrow : (m.filter (fun r => r.typ == "table" && r.name == table)).head? = some row)
    (hnull : row.sql = none) :
    (get_table_schema c table).1 = none ∧
    (sse_get_table_schema c table).1 = none ∧
    (∀ s : String, (get_table_schema c table).1 ≠ some s) ∧
    (∀ s : String, (sse_get_table_schema c table).1 ≠ some s) := by
  refine ⟨?_, ?_, ?_, ?_⟩
  · simp [get_table_schema, connExecMaster, hm, hrow, hnull]
  · simp [sse_get_table_schema, connExecMaster, hm, hrow, hnull]
  · intro s h
    rw [(show (get_table_schema c table).1 = none by
      simp [get_table_schema, connExecMaster, hm, hrow, hnull])] at h
    exact Option.noConfusion h
  · intro s h
    rw [(show (sse_get_table_schema c table).1 = none by
      simp [sse_get_table_schema, connExecMaster, hm, hrow, hnull])] at h
    exact Option.noConfusion h

/-- Witness for C10: the hidden table of the NULL-definition store
yields the NULL value from both implementations. -/
theorem claim_C10_witness :
    (get_table_schema nullDefConn "hidden").1 = none ∧
    (sse_get_table_schema nullDefConn "hidden").1 = none ∧
    (∀ s : String, (get_table_schema nullDefConn "hidden").1 ≠ some s) ∧
    (∀ s : String, (sse_get_table_schema nullDefConn "hidden").1 ≠ some s) :=
  claim_C10_null_definition nullDefConn "hidden" nullDefMaster
    ⟨"table", "hidden", none⟩ rfl (by decide) rfl

/-- Keys after a Python dict insertion: the old keys plus the inserted
key. -/
theorem keys_dictInsertStr (d : List (String × String)) (k v x : String) :
    x ∈ (dictInsertStr d k v).map Prod.fst ↔ x ∈ d.map Prod.fst ∨ x = k := by
  unfold dictInsertStr
  by_cases h : d.any (fun p => p.1 == k)
  · rw [if_pos h, List.map_map]
    have hk : k ∈ d.map Prod.fst := by
      obtain ⟨p, hp, he⟩ := List.any_eq_true.mp h
      exact List.mem_map.mpr ⟨p, hp, beq_iff_eq.mp he⟩
    have hfst : d.map (Prod.fst ∘ fun p => if p.1 == k then (p.1, v) else p) = d.map Prod.fst := by
      apply List.map_congr_left
      intro p _
      simp only [Function.comp]
      split
      · rfl
      · rfl
    rw [hfst]
    constructor
    · exact Or.inl
    · rintro (hx | hx)
      · exact hx
      · exact hx ▸ hk
  · rw [if_neg h]
    simp [List.mem_append]

/-- Keys accumulated by the stdio schema comprehension: the starting
keys plus the names of the rows with a non-None definition. -/
theorem keys_schemas_foldl (rows : List MasterRow) (d : List (String × String)) (x : String) :
    x ∈ (rows.foldl schemasIns d).map Prod.fst ↔
      x ∈ d.map Prod.fst ∨ ∃ r, r ∈ rows ∧ r.name = x ∧ r.sql ≠ none := by
  induction rows generalizing d with
  | nil => simp
  | cons r rest ih =>
    rw [List.foldl_cons, ih]
    cases hs : r.sql with
    | none =>
      simp only [schemasIns, hs, List.mem_cons]
      constructor
      · rintro (hd | ⟨r2, h2, h3, h4⟩)
        · exact Or.inl hd
        · exact Or.inr ⟨r2, Or.inr h2, h3, h4⟩
      · rintro (hd | ⟨r2, (rfl | h2), h3, h4⟩)
        · exact Or.inl hd
        · exact absurd hs h4
        · exact Or.inr ⟨r2, h2, h3, h4⟩
    | some s =>
      simp only [schemasIns, hs, keys_dictInsertStr, List.mem_cons]
      constructor
      · rintro ((hd | hx) | ⟨r2, h2, h3, h4⟩)
        · exact Or.inl hd
        · exact Or.inr ⟨r, Or.inl rfl, hx.symm, by simp [hs]⟩
        · exact Or.inr ⟨r2, Or.inr h2, h3, h4⟩
      · rintro (hd | ⟨r2, (rfl | h2), h3, h4⟩)
        · exact Or.inl (Or.inl hd)
        · exact Or.inl (Or.inr h3.symm)
        · exact Or.inr ⟨r2, h2, h3, h4⟩

/-- Keys accumulated by the SSE schema comprehension: the starting keys
plus the names of the rows whose definition is truthy (non-None and
non-empty). -/
theorem keys_sse_schemas_foldl (rows : List MasterRow) (d : List (String × String)) (x : String) :
    x ∈ (rows.foldl sse_schemasIns d).map Prod.fst ↔
      x ∈ d.map Prod.fst ∨ ∃ r, r ∈ rows ∧ r.name = x ∧ r.sql ≠ none ∧ r.sql ≠ some "" := by
  induction rows generalizing d with
  | nil => simp
  | cons r rest ih =>
    rw [List.foldl_cons, ih]
    cases hs : r.sql with
    | none =>
      simp only [sse_schemasIns, hs, List.mem_cons]
      constructor
      · rintro (hd | ⟨r2, h2, h3, h4, h5⟩)
        · exact Or.inl hd
        · exact Or.inr ⟨r2, Or.inr h2, h3, h4, h5⟩
      · rintro (hd | ⟨r2, (rfl | h2), h3, h4, h5⟩)
        · exact Or.inl hd
        · exact absurd hs (fun h => h4 h)
        · exact Or.inr ⟨r2, h2, h3, h4, h5⟩
    | some s =>
      by_cases hse : s = ""
      · subst hse
        simp only [sse_schemasIns, hs, List.mem_cons]
        rw [if_pos (by rfl)]
        constructor
        · rintro (hd | ⟨r2, h2, h3, h4, h5⟩)
          · exact Or.inl hd
          · exact Or.inr ⟨r2, Or.inr h2, h3, h4, h5⟩
        · rintro (hd | ⟨r2, (rfl | h2), h3, h4, h5⟩)
          · exact Or.inl hd
          · exact absurd hs (fun h => h5 h)
          · exact Or.inr ⟨r2, h2, h3, h4, h5⟩
      · simp only [sse_schemasIns, hs]
        rw [if_neg (by simpa using hse)]
        simp only [keys_dictInsertStr, List.mem_cons]
        constructor
        · rintro ((hd | hx) | ⟨r2, h2, h3, h4, h5⟩)
          · exact Or.inl hd
          · exact Or.inr ⟨r, Or.inl rfl, hx.symm, by simp [hs], by simp [hs, hse]⟩
          · exact Or.inr ⟨r2, Or.inr h2, h3, h4, h5⟩
        · rintro (hd | ⟨r2, (rfl | h2), h3, h4, h5⟩)
          · exact Or.inl (Or.inl hd)
          · exact Or.inl (Or.inr h3.symm)
          · exact Or.inr ⟨r2, h2, h3, h4, h5⟩

/-- Claim C3 (amended): with the catalog readable, both listings return
the two-space-indented JSON rendering of their name-to-definition dict;
the stdio key set is exactly the catalog entries of kind table with
non-null definition text, while the SSE key set further excludes
entries whose definition text is the empty string. -/
theorem claim_C3_catalog_keys {σ : Type} (c : Conn σ) (m : List MasterRow)
    (hm : c.model.readMaster c.state = Except.ok m) :
    ((list_table_schemas c).1 =
      dumpsStrDict (schemasDict (m.filter (fun r => r.typ == "table")))) ∧
    (∀ k, k ∈ (schemasDict (m.filter (fun r => r.typ == "table"))).map Prod.fst ↔
      ∃ r, r ∈ m ∧ r.typ = "table" ∧ r.name = k ∧ r.sql ≠ none) ∧
    ((sse_list_table_schemas c).1 =
      dumpsStrDict (sse_schemasDict (m.filter (fun r => r.typ == "table")))) ∧
    (∀ k, k ∈ (sse_schemasDict (m.filter (fun r => r.typ == "table"))).map Prod.fst ↔
      ∃ r, r ∈ m ∧ r.typ = "table" ∧ r.name = k ∧ r.sql ≠ none ∧ r.sql ≠ some "") := by
  refine ⟨?_, ?_, ?_, ?_⟩
  · simp [list_table_schemas, connExecMaster, hm]
  · intro k
    rw [schemasDict, keys_schemas_foldl]
    simp only [List.map_nil, List.not_mem_nil, false_or, List.mem_filter]
    constructor
    · rintro ⟨r, ⟨hr, ht⟩, h3, h4⟩
      exact ⟨r, hr, beq_iff_eq.mp ht, h3, h4⟩
    · rintro ⟨r, hr, ht, h3, h4⟩
      exact ⟨r, ⟨hr, beq_iff_eq.mpr ht⟩, h3, h4⟩
  · simp [sse_list_table_schemas, connExecMaster, hm]
  · intro k
    rw [sse_schemasDict, keys_sse_schemas_foldl]
    simp only [List.map_nil, List.not_mem_nil, false_or, List.mem_filter]
    constructor
    · rintro ⟨r, ⟨hr, ht⟩, h3, h4, h5⟩
      exact ⟨r, hr, beq_iff_eq.mp ht, h3, h4, h5⟩
    · rintro ⟨r, hr, ht, h3, h4, h5⟩
      exact ⟨r, ⟨hr, beq_iff_eq.mpr ht⟩, h3, h4, h5⟩

/-- Witness for C3 (amended) on the demo catalog. -/
theorem claim_C3_witness :
    ((list_table_schemas demoConn).1 =
      dumpsStrDict (schemasDict (demoMaster.filter (fun r => r.typ == "table")))) ∧
    (∀ k, k ∈ (schemasDict (demoMaster.filter (fun r => r.typ == "table"))).map Prod.fst ↔
      ∃ r, r ∈ demoMaster ∧ r.typ = "table" ∧ r.name = k ∧ r.sql ≠ none) ∧
    ((sse_list_table_schemas demoConn).1 =
      dumpsStrDict (sse_schemasDict (demoMaster.filter (fun r => r.typ == "table")))) ∧
    (∀ k, k ∈ (sse_schemasDict (demoMaster.filter (fun r => r.typ == "table"))).map Prod.fst ↔
      ∃ r, r ∈ demoMaster ∧ r.typ = "table" ∧ r.name = k ∧ r.sql ≠ none ∧ r.sql ≠ some "") :=
  claim_C3_catalog_keys demoConn demoMaster rfl

/-- Counterexample for C3 as stated: in the SSE implementation a
catalog entry of kind table with the non-null empty definition text is
absent from the produced keys (the output is the empty JSON object),
although the claim requires every non-null-definition table to be
present. -/
theorem claim_C3_counterexample :
    (∃ r, r ∈ cexMaster ∧ r.typ = "table" ∧ r.sql ≠ none ∧ r.name = "t") ∧
    "t" ∉ (sse_schemasDict (cexMaster.filter (fun r => r.typ == "table"))).map Prod.fst ∧
    (sse_list_table_schemas cexConn).1 = "\x7b\x7d" := by
  refine ⟨⟨⟨"table", "t", some ""⟩, by decide, rfl, by decide, rfl⟩, ?_, ?_⟩
  · decide
  · rfl

/-- Row lookup at the head key yields the head value. -/
theorem pyLookup_cons_self (k : String) (v : SQLValue) (tl : DBRow) :
    pyLookup ((k, v) :: tl) k = v := by
  simp [pyLookup, List.find?_cons_of_pos]

/-- Row lookup at another key skips the head cell. -/
theorem pyLookup_cons_ne (k k2 : String) (v : SQLValue) (tl : DBRow) (h : k ≠ k2) :
    pyLookup ((k, v) :: tl) k2 = pyLookup tl k2 := by
  unfold pyLookup
  rw [List.find?_cons_of_neg]
  simpa using h

/-- Inserting a fresh key appends the pair. -/
theorem dictInsertVal_fresh (d : DBRow) (k : String) (v : SQLValue)
    (h : d.any (fun p => p.1 == k) = false) :
    dictInsertVal d k v = d ++ [(k, v)] := by
  simp [dictInsertVal, h]

/-- Filling a dict over pairwise-distinct fresh keys appends the
looked-up pairs in key order. -/
theorem dictFill_append (row : DBRow) (ks : List String) (d : DBRow)
    (hnd : ks.Nodup) (hfresh : ∀ k ∈ ks, d.any (fun p => p.1 == k) = false) :
    ks.foldl (fun d k => dictInsertVal d k (pyLookup row k)) d =
      d ++ ks.map (fun k => (k, pyLookup row k)) := by
  induction ks generalizing d with
  | nil => simp
  | cons k ks ih =>
    rw [List.foldl_cons, dictInsertVal_fresh d k _ (hfresh k (List.mem_cons_self k ks))]
    rw [ih (d ++ [(k, pyLookup row k)]) (List.nodup_cons.mp hnd).2]
    · simp
    · intro k2 hk2
      rw [List.any_append]
      have h1 : d.any (fun p => p.1 == k2) = false := hfresh k2 (List.mem_cons_of_mem k hk2)
      have h2 : k ≠ k2 := fun he => (List.nodup_cons.mp hnd).1 (he ▸ hk2)
      simp [h1, h2]

/-- Rebuilding a row from its key list via row lookup is the identity
when the column names are pairwise distinct. -/
theorem keys_map_pyLookup (row : DBRow) (h : (row.map Prod.fst).Nodup) :
    (row.map Prod.fst).map (fun k => (k, pyLookup row k)) = row := by
  induction row with
  | nil => simp
  | cons p tl ih =>
    obtain ⟨k, v⟩ := p
    rw [List.map_cons] at h
    have hk : k ∉ tl.map Prod.fst := (List.nodup_cons.mp h).1
    have htl : (tl.map Prod.fst).Nodup := (List.nodup_cons.mp h).2
    simp only [List.map_cons, pyLookup_cons_self]
    congr 1
    rw [List.map_congr_left (fun k2 hk2 =>
      congrArg (fun w => (k2, w)) (pyLookup_cons_ne k k2 v tl (fun he => hk (he ▸ hk2))))]
    exact ih htl

/-- dict(row) is the identity on rows with pairwise-distinct column
names. -/
theorem dictOfRow_id (row : DBRow) (h : (row.map Prod.fst).Nodup) :
    dictOfRow row = row := by
  unfold dictOfRow
  rw [dictFill_append row (row.map Prod.fst) [] h (fun k _ => rfl)]
  simpa using keys_map_pyLookup row h

/-- hexDigit produces grammar hex digits. -/
theorem hexDigit_isHex : ∀ d < 16, isHexDigitB (hexDigit d) = true := by decide

/-- hexVal inverts hexDigit. -/
theorem hexVal_hexDigit : ∀ d < 16, hexVal (hexDigit d) = d := by decide

/-- The four nibbles of a code point below 2^16 recompose to it. -/
theorem hex4Val_hex4L (n : Nat) (h : n < 65536) :
    hex4Val (hexDigit (n / 4096 % 16)) (hexDigit (n / 256 % 16))
      (hexDigit (n / 16 % 16)) (hexDigit (n % 16)) = n := by
  unfold hex4Val
  rw [hexVal_hexDigit _ (by omega), hexVal_hexDigit _ (by omega),
      hexVal_hexDigit _ (by omega), hexVal_hexDigit _ (by omega)]
  omega

/-- The empty list is whitespace. -/
theorem allWs_nil : AllWs [] := by
  intro c hc
  exact absurd hc (List.not_mem_nil c)

/-- Whitespace is closed under append. -/
theorem allWs_append (a b : List Char) (ha : AllWs a) (hb : AllWs b) : AllWs (a ++ b) := by
  intro c hc
  rcases List.mem_append.mp hc with h | h
  · exact ha c h
  · exact hb c h

/-- Spaces are whitespace. -/
theorem allWs_indentL (n : Nat) : AllWs (indentL n) := by
  intro c hc
  exact Or.inl (List.eq_of_mem_replicate hc)

/-- A newline before whitespace is whitespace. -/
theorem allWs_cons_nl (l : List Char) (h : AllWs l) : AllWs ('\n' :: l) := by
  intro c hc
  rcases List.mem_cons.mp hc with h2 | h2
  · exact Or.inr (Or.inl h2)
  · exact h c h2

/-- A single newline is whitespace. -/
theorem allWs_single_nl : AllWs ['\n'] := allWs_cons_nl [] allWs_nil

/-- A single space is whitespace. -/
theorem allWs_single_space : AllWs [' '] := by
  intro c hc
  simp only [List.mem_singleton] at hc
  exact Or.inl hc

/-- A decimal digit list is never empty. -/
theorem natToDigits_ne_nil (n : Nat) : natToDigits n ≠ [] := by
  unfold natToDigits
  split
  · simp
  · rename_i h
    have hd : Nat.digits 10 n ≠ [] := Nat.digits_ne_nil_iff_ne_zero.mpr h
    simp only [ne_eq, List.map_eq_nil_iff, List.reverse_eq_nil_iff]
    exact hd

/-- digitChar of a digit is a decimal digit character. -/
theorem digitB_digitChar : ∀ d < 10, digitB (Nat.digitChar d) = true := by decide

/-- digitChar of a nonzero digit is a nonzero digit character. -/
theorem oneNine_digitChar : ∀ d < 10, 1 ≤ d → oneNine (Nat.digitChar d) = true := by decide

/-- Every character of a decimal digit list is a digit. -/
theorem natToDigits_digits (n : Nat) : ∀ c ∈ natToDigits n, digitB c = true := by
  intro c hc
  unfold natToDigits at hc
  split at hc
  · simp only [List.mem_singleton] at hc
    subst hc
    decide
  · simp only [List.mem_map, List.mem_reverse] at hc
    obtain ⟨d, hd, rfl⟩ := hc
    exact digitB_digitChar d (Nat.digits_lt_base (by norm_num) hd)

/-- A decimal digit list is a grammar integer part: the single digit 0,
or a nonzero leading digit followed by digits. -/
theorem intPart_natToDigits (n : Nat) : IntPart (natToDigits n) := by
  unfold natToDigits
  split
  · exact IntPart.zero
  · rename_i h
    have hne : Nat.digits 10 n ≠ [] := Nat.digits_ne_nil_iff_ne_zero.mpr h
    have hrev : (Nat.digits 10 n).reverse =
        (Nat.digits 10 n).getLast hne :: (Nat.digits 10 n).dropLast.reverse := by
      conv_lhs => rw [← List.dropLast_append_getLast hne]
      rw [List.reverse_append]
      simp
    rw [hrev, List.map_cons]
    apply IntPart.pos
    · apply oneNine_digitChar
      · exact Nat.digits_lt_base (by norm_num) (List.getLast_mem hne)
      · have h0 := Nat.getLast_digit_ne_zero 10 h
        omega
    · intro d hd
      simp only [List.mem_map, List.mem_reverse] at hd
      obtain ⟨d2, hd2, rfl⟩ := hd
      exact digitB_digitChar d2 (Nat.digits_lt_base (by norm_num) (List.dropLast_subset _ hd2))

/-- The sign an integer renders with is a grammar number sign. -/
theorem numSign_int (n : Int) : NumSign (if n < 0 then ['-'] else []) := by
  split
  · exact NumSign.minus
  · exact NumSign.empty

/-- A rendered integer is a JSON number token. -/
theorem numTok_intDigits (n : Int) : NumTok (intDigits n) := by
  have h := NumTok.mk (if n < 0 then ['-'] else []) (natToDigits n.natAbs) [] []
    (numSign_int n) (intPart_natToDigits _) FracPart.empty ExpPart.empty
  simpa [intDigits] using h

/-- A rendered decimal float is a JSON number token. -/
theorem numTok_decDigits (m : Int) (e : Nat) : NumTok (decDigits m e) := by
  by_cases he : e = 0
  · subst he
    have h := NumTok.mk (if m < 0 then ['-'] else []) (natToDigits m.natAbs) ['.', '0'] []
      (numSign_int m) (intPart_natToDigits _)
      (FracPart.point ['0'] (by simp) (by decide)) ExpPart.empty
    simpa [decDigits] using h
  · have hfr : List.replicate (e - (natToDigits (m.natAbs % 10 ^ e)).length) '0' ++
        natToDigits (m.natAbs % 10 ^ e) ≠ [] := by
      intro hc
      exact natToDigits_ne_nil _ (List.append_eq_nil.mp hc).2
    have hds : ∀ d ∈ List.replicate (e - (natToDigits (m.natAbs % 10 ^ e)).length) '0' ++
        natToDigits (m.natAbs % 10 ^ e), digitB d = true := by
      intro d hd
      rcases List.mem_append.mp hd with h1 | h1
      · rw [List.eq_of_mem_replicate h1]
        decide
      · exact natToDigits_digits _ d h1
    have h := NumTok.mk (if m < 0 then ['-'] else []) (natToDigits (m.natAbs / 10 ^ e))
      ('.' :: (List.replicate (e - (natToDigits (m.natAbs % 10 ^ e)).length) '0' ++
        natToDigits (m.natAbs % 10 ^ e))) []
      (numSign_int m) (intPart_natToDigits _) (FracPart.point _ hfr hds) ExpPart.empty
    simpa [decDigits, he] using h

/-- Rebuilding a string from its character data. -/
theorem string_eta (s : String) : String.mk s.data = s := rfl

/-- The escape function emits a grammar-legal encoding of every
character. -/
theorem encChar_escCharL (c : Char) : EncChar c (escCharL c) := by
  have hv : c.toNat < 55296 ∨ (57343 < c.toNat ∧ c.toNat < 1114112) := c.valid
  unfold escCharL
  by_cases h1 : c = '"'
  · rw [if_pos h1]
    subst h1
    exact EncChar.equot
  rw [if_neg h1]
  by_cases h2 : c = '\\'
  · rw [if_pos h2]
    subst h2
    exact EncChar.ebslash
  rw [if_neg h2]
  by_cases h3 : c = '\x08'
  · rw [if_pos h3]
    subst h3
    exact EncChar.ebs
  rw [if_neg h3]
  by_cases h4 : c = '\x0c'
  · rw [if_pos h4]
    subst h4
    exact EncChar.eff
  rw [if_neg h4]
  by_cases h5 : c = '\n'
  · rw [if_pos h5]
    subst h5
    exact EncChar.enl
  rw [if_neg h5]
  by_cases h6 : c = '\r'
  · rw [if_pos h6]
    subst h6
    exact EncChar.ecr
  rw [if_neg h6]
  by_cases h7 : c = '\t'
  · rw [if_pos h7]
    subst h7
    exact EncChar.etab
  rw [if_neg h7]
  by_cases h8 : c.toNat < 32
  · rw [if_pos h8]
    simp only [hex4L]
    exact EncChar.uesc c _ _ _ _ (hexDigit_isHex _ (by omega)) (hexDigit_isHex _ (by omega))
      (hexDigit_isHex _ (by omega)) (hexDigit_isHex _ (by omega))
      (hex4Val_hex4L c.toNat (by omega))
  rw [if_neg h8]
  by_cases h9 : c.toNat <= 126
  · rw [if_pos h9]
    exact EncChar.plain c h1 h2 (by omega)
  rw [if_neg h9]
  by_cases h10 : c.toNat <= 65535
  · rw [if_pos h10]
    simp only [hex4L]
    exact EncChar.uesc c _ _ _ _ (hexDigit_isHex _ (by omega)) (hexDigit_isHex _ (by omega))
      (hexDigit_isHex _ (by omega)) (hexDigit_isHex _ (by omega))
      (hex4Val_hex4L c.toNat (by omega))
  rw [if_neg h10]
  simp only [hex4L, List.cons_append, List.nil_append]
  have hhi : 55296 + (c.toNat - 65536) / 1024 < 65536 := by omega
  have hlo : 56320 + (c.toNat - 65536) % 1024 < 65536 := by omega
  apply EncChar.upair c _ _ _ _ _ _ _ _
    (hexDigit_isHex _ (by omega)) (hexDigit_isHex _ (by omega))
    (hexDigit_isHex _ (by omega)) (hexDigit_isHex _ (by omega))
    (hexDigit_isHex _ (by omega)) (hexDigit_isHex _ (by omega))
    (hexDigit_isHex _ (by omega)) (hexDigit_isHex _ (by omega))
  · rw [hex4Val_hex4L _ hhi]
    omega
  · rw [hex4Val_hex4L _ hhi]
    omega
  · rw [hex4Val_hex4L _ hlo]
    omega
  · rw [hex4Val_hex4L _ hlo]
    omega
  · rw [hex4Val_hex4L _ hhi, hex4Val_hex4L _ hlo]
    omega

/-- Mapping the escape function over a string body yields a
grammar-legal string-body encoding. -/
theorem encStr_escape (l : List Char) : EncStr l (l.map escCharL).flatten := by
  induction l with
  | nil => exact EncStr.nil
  | cons c rest ih =>
    simp only [List.map_cons, List.flatten_cons]
    exact EncStr.cons c _ rest _ (encChar_escCharL c) ih

/-- Every rendered scalar derives as a JSON value. -/
theorem jval_renderScalarL (v : SQLValue) : JVal (renderScalarL v) (scalarAST v) := by
  cases v with
  | null => exact JVal.vnull
  | boolV b =>
    cases b
    · exact JVal.vfalse
    · exact JVal.vtrue
  | intV n => exact JVal.vnum _ (numTok_intDigits n)
  | realV m e => exact JVal.vnum _ (numTok_decDigits m e)
  | textV s =>
    have h := JVal.vstr s.data ((s.data.map escCharL).flatten) (encStr_escape s.data)
    simpa [renderScalarL, quoteJsonL, string_eta] using h

/-- The joined field lines of a nonempty row, between any leading and
trailing whitespace, derive as the grammar's members. -/
theorem jmembers_join (lvl : Nat) (p : String × SQLValue) (fields : DBRow)
    (lead tail : List Char) (hlead : AllWs lead) (htail : AllWs tail) :
    JMembers (lead ++ joinSep [',', '\n'] ((p :: fields).map (jsonItemL lvl)) ++ tail)
      (rowAST (p :: fields)) := by
  induction fields generalizing p lead with
  | nil =>
    have h := JMembers.one (lead ++ indentL (2 * (lvl + 1))) p.1.data
      ((p.1.data.map escCharL).flatten) [] [' '] (renderScalarL p.2) tail (scalarAST p.2)
      (allWs_append _ _ hlead (allWs_indentL _)) (encStr_escape _) allWs_nil
      allWs_single_space (jval_renderScalarL p.2) htail
    simpa [joinSep, jsonItemL, quoteJsonL, rowAST, string_eta] using h
  | cons q rest ih =>
    have hrest := ih q ['\n'] allWs_single_nl
    have h := JMembers.cons (lead ++ indentL (2 * (lvl + 1))) p.1.data
      ((p.1.data.map escCharL).flatten) [] [' '] (renderScalarL p.2) []
      ('\n' :: (joinSep [',', '\n'] ((q :: rest).map (jsonItemL lvl)) ++ tail))
      (scalarAST p.2) (rowAST (q :: rest))
      (allWs_append _ _ hlead (allWs_indentL _)) (encStr_escape _) allWs_nil
      allWs_single_space (jval_renderScalarL p.2) allWs_nil (by simpa using hrest)
    simpa [joinSep, jsonItemL, quoteJsonL, rowAST, string_eta] using h

/-- Every serialized row object derives as a JSON value. -/
theorem jval_dumpsObjL (lvl : Nat) (r : DBRow) :
    JVal (dumpsObjL lvl r) (JsonVal.objJ (rowAST r)) := by
  cases r with
  | nil =>
    have h := JVal.vobjNil [] allWs_nil
    simpa [dumpsObjL, rowAST] using h
  | cons p fields =>
    have hm : JMembers ('\n' :: (joinSep [',', '\n'] ((p :: fields).map (jsonItemL lvl)) ++
        '\n' :: indentL (2 * lvl))) (rowAST (p :: fields)) := by
      simpa using jmembers_join lvl p fields ['\n'] ('\n' :: indentL (2 * lvl))
        allWs_single_nl (allWs_cons_nl _ (allWs_indentL _))
    simpa [dumpsObjL] using JVal.vobj _ _ hm

/-- The joined items of a nonempty row list, between any leading and
trailing whitespace, derive as the grammar's elements. -/
theorem jelems_join (r : DBRow) (rows : List DBRow) (lead tail : List Char)
    (hlead : AllWs lead) (htail : AllWs tail) :
    JElems (lead ++ joinSep [',', '\n'] ((r :: rows).map (fun r2 => indentL 2 ++ dumpsObjL 1 r2)) ++ tail)
      ((r :: rows).map (fun r2 => JsonVal.objJ (rowAST r2))) := by
  induction rows generalizing r lead with
  | nil =>
    have h := JElems.one (lead ++ indentL 2) (dumpsObjL 1 r) tail (JsonVal.objJ (rowAST r))
      (allWs_append _ _ hlead (allWs_indentL 2)) (jval_dumpsObjL 1 r) htail
    simpa [joinSep] using h
  | cons q rest ih =>
    have hrest := ih q ['\n'] allWs_single_nl
    have h := JElems.cons (lead ++ indentL 2) (dumpsObjL 1 r) []
      ('\n' :: (joinSep [',', '\n'] ((q :: rest).map (fun r2 => indentL 2 ++ dumpsObjL 1 r2)) ++ tail))
      (JsonVal.objJ (rowAST r)) ((q :: rest).map (fun r2 => JsonVal.objJ (rowAST r2)))
      (allWs_append _ _ hlead (allWs_indentL 2)) (jval_dumpsObjL 1 r) allWs_nil
      (by simpa using hrest)
    simpa [joinSep] using h

/-- The serialized row list derives as a JSON array of the rows'
objects. -/
theorem jval_dumpsRowListL (rows : List DBRow) :
    JVal (dumpsRowListL rows) (JsonVal.arrJ (rows.map (fun r => JsonVal.objJ (rowAST r)))) := by
  cases rows with
  | nil =>
    have h := JVal.varrNil [] allWs_nil
    simpa [dumpsRowListL] using h
  | cons r rest =>
    have he : JElems ('\n' :: (joinSep [',', '\n'] ((r :: rest).map (fun r2 => indentL 2 ++ dumpsObjL 1 r2)) ++ ['\n']))
        ((r :: rest).map (fun r2 => JsonVal.objJ (rowAST r2))) := by
      simpa using jelems_join r rest ['\n'] ['\n'] allWs_single_nl allWs_single_nl
    simpa [dumpsRowListL] using JVal.varr _ _ he

/-- The keys of a row's abstract object are the row's column names. -/
theorem rowAST_keys (r : DBRow) : (rowAST r).map Prod.fst = r.map Prod.fst := by
  simp [rowAST, List.map_map]

/-- Claim C2: for a query accepted by the gate whose execution yields
rows with pairwise-distinct column names (the data model guarantees
unique column names within a row), sql_query returns exactly the
two-space-indented json.dumps rendering of the rows, and that string
parses as JSON — it derives, in the ECMA-404 grammar relation JVal, as
an array with one object per returned row whose keys are that row's
column names in order.  The serializer is a total function on the
representable scalar domain, so serialization cannot throw. -/
theorem claim_C2_serialization {σ : Type} (c : Conn σ) (q : String)
    (rows : List DBRow) (s2 : σ)
    (hacc : acceptsQuery q = true)
    (hrun : c.model.runQuery c.state q = (Except.ok rows, s2))
    (hnd : ∀ r ∈ rows, (r.map Prod.fst).Nodup) :
    (sql_query c q).1 = dumpsRowList rows ∧
    ∃ objs : List (List (String × JsonVal)),
      JVal ((sql_query c q).1).data (JsonVal.arrJ (objs.map JsonVal.objJ)) ∧
      objs.length = rows.length ∧
      ∀ (i : Nat) (h1 : i < objs.length) (h2 : i < rows.length),
        (objs.get ⟨i, h1⟩).map Prod.fst = (rows.get ⟨i, h2⟩).map Prod.fst := by
  have hmap : rows.map dictOfRow = rows :=
    List.map_congr_left (fun r hr => dictOfRow_id r (hnd r hr)) |>.trans (List.map_id rows)
  have hout : (sql_query c q).1 = dumpsRowList rows := by
    unfold acceptsQuery at hacc
    simp [sql_query, hacc, connExecClient, hrun, hmap]
  refine ⟨hout, rows.map rowAST, ?_, by simp, ?_⟩
  · rw [hout]
    have hj := jval_dumpsRowListL rows
    simpa [dumpsRowList, List.map_map] using hj
  · intro i h1 h2
    rw [List.get_eq_getElem, List.get_eq_getElem, List.getElem_map]
    exact rowAST_keys _

/-- Witness for C2 at the spec's end-to-end example: the accepted
SELECT over the demo store serializes its single row and the output
parses as a one-object JSON array keyed by the two column names. -/
theorem claim_C2_witness :
    (sql_query demoConn "SELECT startup_name, funding_amount FROM startups").1 =
      dumpsRowList [demoRow] ∧
    ∃ objs : List (List (String × JsonVal)),
      JVal ((sql_query demoConn "SELECT startup_name, funding_amount FROM startups").1).data
        (JsonVal.arrJ (objs.map JsonVal.objJ)) ∧
      objs.length = [demoRow].length ∧
      ∀ (i : Nat) (h1 : i < objs.length) (h2 : i < [demoRow].length),
        (objs.get ⟨i, h1⟩).map Prod.fst = ([demoRow].get ⟨i, h2⟩).map Prod.fst :=
  claim_C2_serialization demoConn "SELECT startup_name, funding_amount FROM startups"
    [demoRow] () (by decide) rfl (by decide)
